import Mathlib

/-!
Verification of the voice-diary pipeline (db_utils/db_manager.py,
summarize_day/summarize_day.py, transcribe_raw_audio/transcribe_raw_audio.py,
file_utils/mv_files.py, dwnload_files/dwnload_files.py).

The database layer is embedded as explicit state passing over a `DBState`
record holding the rows of the `categories`, `transcriptions` and
`processed_files` tables together with the serial counters.  Fallible
Python code (try/except) is embedded by threading an explicit failure
specification: each primitive that can raise gets a boolean saying whether
it raises in the modelled execution, and the except-branches of the source
become the corresponding branches of the Lean function.
-/

namespace VoiceDiary

/-- Result of a Python call: it either returns a value or raises. -/
inductive PyResult (α : Type) where
  | returned (a : α)
  | raised
deriving DecidableEq, Repr

/-- Python truthiness of an optional string argument (`if s:`):
`None` and the empty string are falsy. -/
def strTruthy : Option String → Bool
  | none => false
  | some s => !(s == "")

/-- A row of the `categories` table (`id SERIAL`, `name TEXT UNIQUE`).
`description`/`created_at` carry no claim content but are kept. -/
structure Category where
  id : Nat
  name : String
deriving DecidableEq, Repr

/-- A row of the `transcriptions` table. `duration_seconds FLOAT` is kept
abstract as an optional integer (no claim computes with it); `metadata`
is the JSON-dumped string; `created_at` is the commit clock value. -/
structure Transcription where
  id : Nat
  content : String
  filename : Option String
  audio_path : Option String
  model_type : Option String
  created_at : Nat
  duration_seconds : Option Int
  category_id : Option Nat
  metadata : Option String
deriving DecidableEq, Repr

/-- A row of the `processed_files` table (`filename TEXT UNIQUE`). -/
structure ProcessedFile where
  id : Nat
  filename : String
  file_path : String
  status : String
  transcription_id : Option Nat
deriving DecidableEq, Repr

/-- The visible database state: the three tables touched by
`save_transcription`, plus the serial sequences. -/
structure DBState where
  categories : List Category
  transcriptions : List Transcription
  processed_files : List ProcessedFile
  next_category_id : Nat
  next_transcription_id : Nat
  next_processed_file_id : Nat
deriving DecidableEq, Repr

/-- The empty database right after `create_tables`. -/
def DBState.empty : DBState :=
  { categories := []
    transcriptions := []
    processed_files := []
    next_category_id := 1
    next_transcription_id := 1
    next_processed_file_id := 1 }

/-- The statement `INSERT INTO categories (name) VALUES (%s) ON CONFLICT (name) DO UPDATE
SET name = EXCLUDED.name RETURNING id`: on a name collision the existing
row is (no-op) updated and its id returned, otherwise a fresh row is
inserted and its fresh serial id returned. -/
def upsertCategory (s : DBState) (name : String) : Nat × DBState :=
  match s.categories.find? (fun c => c.name == name) with
  | some c => (c.id, s)
  | none =>
      (s.next_category_id,
       { s with
          categories := s.categories ++ [⟨s.next_category_id, name⟩]
          next_category_id := s.next_category_id + 1 })

/-- The statement `INSERT INTO processed_files ... ON CONFLICT (filename) DO UPDATE SET
processed_at = CURRENT_TIMESTAMP, status = EXCLUDED.status,
transcription_id = EXCLUDED.transcription_id`: a repeat filename updates
status and transcription reference in place (note: `file_path` is NOT
updated on conflict), otherwise a fresh row is inserted. -/
def upsertProcessedFile (s : DBState) (filename file_path status : String)
    (tid : Nat) : DBState :=
  if s.processed_files.any (fun p => p.filename == filename) then
    { s with
       processed_files := s.processed_files.map (fun p =>
         if p.filename == filename then
           { p with status := status, transcription_id := some tid }
         else p) }
  else
    { s with
       processed_files := s.processed_files ++
         [⟨s.next_processed_file_id, filename, file_path, status, some tid⟩]
       next_processed_file_id := s.next_processed_file_id + 1 }

/-- The keyword arguments of `save_transcription`. -/
structure SaveArgs where
  content : String
  filename : Option String
  audio_path : Option String
  model_type : Option String
  duration_seconds : Option Int
  category : Option String
  metadata : Option String
deriving DecidableEq, Repr

/-- The try-block of `save_transcription` on the success path: resolve or
create the category when `category` is truthy, insert the transcription
row, and upsert a ProcessedFile row when both `filename` and `audio_path`
are truthy.  Returns the new transcription id and the committed state. -/
def save_transcription_body (s : DBState) (now : Nat) (a : SaveArgs) :
    Nat × DBState :=
  let cs : Option Nat × DBState :=
    if strTruthy a.category then
      let r := upsertCategory s (a.category.getD "")
      (some r.1, r.2)
    else (none, s)
  let category_id := cs.1
  let s1 := cs.2
  let tid := s1.next_transcription_id
  let s2 : DBState :=
    { s1 with
       transcriptions := s1.transcriptions ++
         [⟨tid, a.content, a.filename, a.audio_path, a.model_type, now,
           a.duration_seconds, category_id, a.metadata⟩]
       next_transcription_id := tid + 1 }
  let s3 :=
    if strTruthy a.filename && strTruthy a.audio_path then
      upsertProcessedFile s2 (a.filename.getD "") (a.audio_path.getD "")
        "completed" tid
    else s2
  (tid, s3)

/-- Which of the fallible primitives inside `save_transcription` raise in
the modelled execution: the connection checkout, the three `cur.execute`
statements, and the final `conn.commit()`. -/
structure FailSpec where
  conn : Bool
  cat : Bool
  trans : Bool
  pfile : Bool
  commit : Bool
deriving DecidableEq, Repr

/-- A `FailSpec` in which nothing raises. -/
def FailSpec.none : FailSpec := ⟨false, false, false, false, false⟩

/-- Function `save_transcription` with its try/except/rollback: any raising
primitive lands in the except-branch, which rolls the transaction back
(the caller observes the original state) and returns the sentinel `none`;
otherwise the transaction commits and the new id is returned. -/
def save_transcription (s : DBState) (now : Nat) (a : SaveArgs)
    (f : FailSpec) : Option Nat × DBState :=
  if f.conn then (none, s)
  else if strTruthy a.category && f.cat then (none, s)
  else if f.trans then (none, s)
  else if (strTruthy a.filename && strTruthy a.audio_path) && f.pfile then
    (none, s)
  else if f.commit then (none, s)
  else
    let r := save_transcription_body s now a
    (some r.1, r.2)

/-- Function `create_tables`: its except-branch rolls back, logs and re-raises, so
the call raises exactly when the underlying DDL fails. -/
def create_tables_run (ddl_ok : Bool) : PyResult Unit :=
  if ddl_ok then .returned () else .raised

/-- Function `initialize_db`: builds the connection pool and calls `create_tables`
inside one try/except; any exception is caught and logged and `False` is
returned, otherwise `True` is returned. -/
def initialize_db (pool_ok : Bool) (ddl_ok : Bool) : PyResult Bool :=
  if pool_ok then
    match create_tables_run ddl_ok with
    | .raised => .returned false
    | .returned _ => .returned true
  else .returned false

/-- A fetched row of the read queries: `t.*` joined with
`c.name AS category_name` through a LEFT JOIN. -/
structure TranscRow where
  t : Transcription
  category_name : Option String
deriving DecidableEq, Repr

/-- The dynamically-typed value a read function hands back to its Python
caller: `None`, a list of rows, or a single row. -/
inductive PyVal where
  | pynone
  | pylist (rows : List TranscRow)
  | pyrow (r : TranscRow)
deriving DecidableEq, Repr

/-- The join `LEFT JOIN categories c ON t.category_id = c.id`, selecting
`c.name AS category_name`. -/
def joinRow (s : DBState) (t : Transcription) : TranscRow :=
  { t := t
    category_name :=
      t.category_id.bind (fun cid =>
        (s.categories.find? (fun c => c.id == cid)).map (fun c => c.name)) }

/-- The ordering `ORDER BY t.created_at DESC` (insertion sort; ties are unspecified by
SQL, so any stable order is a faithful embedding). -/
def insertDesc (t : Transcription) : List Transcription → List Transcription
  | [] => [t]
  | u :: us => if u.created_at ≤ t.created_at then t :: u :: us
               else u :: insertDesc t us

/-- Sort a table newest-first. -/
def sortByCreatedDesc : List Transcription → List Transcription
  | [] => []
  | t :: ts => insertDesc t (sortByCreatedDesc ts)

/-- Function `get_transcription(transcription_id)`: `fetchone()` of the single-row
query — a row, or `None` when no row matches; the except-branch catches
any storage error (`err = true`) and returns `None`. -/
def get_transcription (s : DBState) (err : Bool) (transcription_id : Nat) :
    PyVal :=
  if err then PyVal.pynone
  else
    match s.transcriptions.find? (fun t => t.id == transcription_id) with
    | some t => PyVal.pyrow (joinRow s t)
    | none => PyVal.pynone

/-- Function `get_latest_transcriptions(limit)`: `fetchall()` of the newest-first
query limited to `limit` rows; the except-branch catches any storage
error and returns the empty list. -/
def get_latest_transcriptions (s : DBState) (err : Bool) (limit : Nat) :
    PyVal :=
  if err then PyVal.pylist []
  else
    PyVal.pylist
      (((sortByCreatedDesc s.transcriptions).take limit).map (joinRow s))

/-- Function `get_transcriptions_by_date_range(start_date, end_date)`:
`WHERE t.created_at BETWEEN %s AND %s` newest-first; the except-branch
catches any storage error and returns the empty list. -/
def get_transcriptions_by_date_range (s : DBState) (err : Bool)
    (start_date end_date : Nat) : PyVal :=
  if err then PyVal.pylist []
  else
    PyVal.pylist
      ((sortByCreatedDesc (s.transcriptions.filter (fun t =>
          decide (start_date ≤ t.created_at ∧ t.created_at ≤ end_date)))).map
        (joinRow s))

/-! ## summarize_day.py -/

/-- A Python `datetime` value at second granularity. -/
structure PyDatetime where
  year : Nat
  month : Nat
  day : Nat
  hour : Nat
  minute : Nat
  second : Nat
deriving DecidableEq, Repr

/-- Gregorian leap year, as the `datetime` module checks it. -/
def isLeapYear (y : Nat) : Bool :=
  (y % 4 == 0 && y % 100 != 0) || y % 400 == 0

/-- Days in a month of a given year. -/
def daysInMonth (y m : Nat) : Nat :=
  if m == 2 then (if isLeapYear y then 29 else 28)
  else if m == 4 || m == 6 || m == 9 || m == 11 then 30
  else 31

/-- Constructor `datetime(year, month, day, hour, minute, second)`: `None` when the
constructor would raise `ValueError` (field out of range). -/
def mkDatetime (y m d hh mm ss : Nat) : Option PyDatetime :=
  if 1 ≤ y ∧ y ≤ 9999 ∧ 1 ≤ m ∧ m ≤ 12 ∧ 1 ≤ d ∧ d ≤ daysInMonth y m
      ∧ hh ≤ 23 ∧ mm ≤ 59 ∧ ss ≤ 59 then
    some ⟨y, m, d, hh, mm, ss⟩
  else none

/-- Numeric value of a list of decimal digit characters. -/
def digitsVal (cs : List Char) : Nat :=
  cs.foldl (fun acc c => acc * 10 + (c.toNat - '0'.toNat)) 0

/-- Python `int(s[a:b])` on a digit string: the slice is clipped to the
string, and `int` raises (`none`) on the empty slice. -/
def pyIntOfSlice (cs : List Char) (a b : Nat) : Option Nat :=
  let sub := (cs.drop a).take (b - a)
  if sub.length > 0 && sub.all (fun c => c.isDigit) then
    some (digitsVal sub)
  else none

/-- Function `date_from_int(date_int)`: slice the decimal string of the integer
into year/month/day and build a midnight datetime; `ValueError` (bad
slice or invalid date) is caught and `None` returned. -/
def date_from_int (date_int : Nat) : Option PyDatetime :=
  let cs := (Nat.repr date_int).toList
  match pyIntOfSlice cs 0 4, pyIntOfSlice cs 4 6, pyIntOfSlice cs 6 8 with
  | some y, some m, some d => mkDatetime y m d 0 0 0
  | _, _, _ => none

/-- Function `get_date_range(config)`: empty range falls back to today twice; a
one-element range is used for both ends; a two-or-more-element range
parses both, falling back to today twice when either is invalid. -/
def get_date_range (date_range : List Nat) (today : PyDatetime) :
    PyDatetime × PyDatetime :=
  match date_range with
  | [] => (today, today)
  | [d1] =>
      match date_from_int d1 with
      | some dt => (dt, dt)
      | none => (today, today)
  | d1 :: d2 :: _ =>
      match date_from_int d1, date_from_int d2 with
      | some a, some b => (a, b)
      | _, _ => (today, today)

/-- The adjustment `summarize_day` applies to the pair returned by
`get_date_range`: start snapped to 00:00:00 and end to 23:59:59 of their
calendar days. -/
def adjust_full_days (p : PyDatetime × PyDatetime) :
    PyDatetime × PyDatetime :=
  (⟨p.1.year, p.1.month, p.1.day, 0, 0, 0⟩,
   ⟨p.2.year, p.2.month, p.2.day, 23, 59, 59⟩)

/-- One entry of the prompts collection; `active`/`template` may be
absent from the underlying dict (`.get` defaults). -/
structure PromptData where
  active : Option Bool
  template : Option String
deriving DecidableEq, Repr

/-- The active entries, as `(name, template)` pairs in collection order
(`prompt_data.get('active', False)`; `prompt_data.get('template', '')`). -/
def activeEntries (prompts : List (String × PromptData)) :
    List (String × String) :=
  (prompts.filter (fun p => p.2.active.getD false)).map
    (fun p => (p.1, p.2.template.getD ""))

/-- Function `get_active_prompt(prompts)`: exactly one active entry is returned
without a warning; several active entries return the first with a logged
warning; none active returns the collection's first entry with a warning,
or `(None, None)` on an empty collection.  The boolean records whether a
warning was logged. -/
def get_active_prompt (prompts : List (String × PromptData)) :
    Option (String × String) × Bool :=
  match activeEntries prompts with
  | [p] => (some p, false)
  | p :: _ :: _ => (some p, true)
  | [] =>
      match prompts with
      | [] => (none, false)
      | (n, d) :: _ => (some (n, d.template.getD ""), true)

/-! ## transcribe_raw_audio.py -/

/-- Does the character list begin with 8 digits, an underscore and 6
digits — the anchored form of the pattern `(\d8_\d6)`? -/
def tsMatchesAt (cs : List Char) : Bool :=
  (cs.take 8).length == 8 && (cs.take 8).all (fun c => c.isDigit)
    && ((cs.drop 8).take 1 == ['_'])
    && ((cs.drop 9).take 6).length == 6
    && ((cs.drop 9).take 6).all (fun c => c.isDigit)

/-- Search `re.search(r'(\d8_\d6)', filename)`: the leftmost 15-character match,
or `none`.  (At a fixed start the pattern is rigid — exactly 8 digits, an
underscore, exactly 6 digits — so leftmost search is a linear scan.) -/
def searchTs : List Char → Option (List Char)
  | [] => none
  | c :: rest =>
      if tsMatchesAt (c :: rest) then some ((c :: rest).take 15)
      else searchTs rest

/-- Parsing `datetime.strptime(timestamp_str, "%Y%m%d_%H%M%S")` on a 15-character
match: the fixed-width fields are read off and the datetime constructed;
`ValueError` (out-of-range field) is `none`. -/
def parseTs (m : List Char) : Option PyDatetime :=
  mkDatetime (digitsVal (m.take 4))
    (digitsVal ((m.drop 4).take 2))
    (digitsVal ((m.drop 6).take 2))
    (digitsVal ((m.drop 9).take 2))
    (digitsVal ((m.drop 11).take 2))
    (digitsVal ((m.drop 13).take 2))

/-- Function `get_timestamp_from_filename(filepath)`: the sort key is the parsed
embedded timestamp when the filename contains the pattern and it parses,
and the filesystem creation time (`ctime`) otherwise. -/
def get_timestamp_from_filename (filename : String) (ctime : PyDatetime) :
    PyDatetime :=
  match searchTs filename.toList with
  | some m =>
      match parseTs m with
      | some dt => dt
      | none => ctime
  | none => ctime

/-! ## file_utils/mv_files.py -/

/-- Index of the last occurrence of a character (Python `str.rfind`). -/
def rfindChar : List Char → Char → Option Nat
  | [], _ => none
  | x :: xs, c =>
      match rfindChar xs c with
      | some i => some (i + 1)
      | none => if x == c then some 0 else none

/-- The `pathlib` stem/suffix of a file name: split at the last dot, provided
it is neither the first nor the last character. -/
def splitName (name : String) : String × String :=
  let cs := name.toList
  match rfindChar cs '.' with
  | some i =>
      if 0 < i ∧ i < cs.length - 1 then
        ((cs.take i).asString, (cs.drop i).asString)
      else (name, "")
  | none => (name, "")

/-- The `while destination_path.exists()` loop of `move_file`: try
`stem_counter.ext`, `stem_(counter+1).ext`, ... until a free name is
found.  The loop has no bound in the source; `fuel` makes the recursion
structural, with `none` marking exhaustion (never hit in the theorems,
which supply enough fuel). -/
def findFreeName (existing : List String) (stem ext : String) :
    Nat → Nat → Option String
  | 0, _ => none
  | fuel + 1, counter =>
      let candidate := stem ++ "_" ++ Nat.repr counter ++ ext
      if existing.contains candidate then
        findFreeName existing stem ext fuel (counter + 1)
      else some candidate

/-- The destination-name resolution of `move_file`: the file keeps its
name unless that name already exists in the destination directory
(modelled as the list of names present), in which case the numeric-suffix
loop runs starting at counter 1. -/
def move_file_dest (existing : List String) (name : String) (fuel : Nat) :
    Option String :=
  if existing.contains name then
    findFreeName existing (splitName name).1 (splitName name).2 fuel 1
  else some name

/-- Function `move_file` at the directory level: the resolved name is added to the
destination's contents (copy and move are identical on the destination
side). -/
def move_file (existing : List String) (name : String) (fuel : Nat) :
    Option (String × List String) :=
  (move_file_dest existing name fuel).map (fun r => (r, existing ++ [r]))

/-! ## dwnload_files.py -/

/-- The media type assigned by the extension lookup in `process_folder`. -/
inductive FileType where
  | audio
  | image
  | video
deriving DecidableEq, Repr

/-- The configuration bits `process_folder` consults per file. -/
structure DlConfig where
  dl_audio_enabled : Bool
  dl_image_enabled : Bool
  dl_video_enabled : Bool
  delete_after_download : Bool
  dry_run : Bool
deriving DecidableEq, Repr

/-- Per-type download enable flag. -/
def typeEnabled (cfg : DlConfig) : FileType → Bool
  | .audio => cfg.dl_audio_enabled
  | .image => cfg.dl_image_enabled
  | .video => cfg.dl_video_enabled

/-- The per-folder statistics dictionary. -/
structure FolderStats where
  processed_files : Nat
  downloaded_files : Nat
  skipped_files : Nat
  error_files : Nat
  deleted_files : Nat
  audio_files : Nat
  image_files : Nat
  video_files : Nat
deriving DecidableEq, Repr

/-- One listed drive item as the loop body sees it: its media type from
the extension lookup (`none` = unsupported extension), whether
`download_file` reports success, and whether the remote deletion
succeeds. -/
structure DriveItem where
  ftype : Option FileType
  download_ok : Bool
  delete_ok : Bool
deriving DecidableEq, Repr

/-- Function `delete_file`: deletion errors are caught and logged, the call
returns `True` on success and `False` on error — it never raises. -/
def delete_file (delete_ok : Bool) : Bool := delete_ok

/-- Bump the per-type counter at classification time. -/
def bumpType (st : FolderStats) : FileType → FolderStats
  | .audio => { st with audio_files := st.audio_files + 1 }
  | .image => { st with image_files := st.image_files + 1 }
  | .video => { st with video_files := st.video_files + 1 }

/-- The per-file body of the loop in `process_folder`: count the file as
processed; skip unsupported or disabled types; in dry-run only count; on
a successful download count it and, when configured, call `delete_file`
— whose boolean result is discarded — and count the file as deleted; a
failed download counts as an error. -/
def process_item (cfg : DlConfig) (st : FolderStats) (it : DriveItem) :
    FolderStats :=
  let st := { st with processed_files := st.processed_files + 1 }
  match it.ftype with
  | none => { st with skipped_files := st.skipped_files + 1 }
  | some ft =>
      let st := bumpType st ft
      if !typeEnabled cfg ft then
        { st with skipped_files := st.skipped_files + 1 }
      else if cfg.dry_run then
        { st with downloaded_files := st.downloaded_files + 1 }
      else if it.download_ok then
        let st := { st with downloaded_files := st.downloaded_files + 1 }
        if cfg.delete_after_download then
          let _ := delete_file it.delete_ok
          { st with deleted_files := st.deleted_files + 1 }
        else st
      else { st with error_files := st.error_files + 1 }

/-! ## Invariants of the schema -/

/-- The filenames stored in `processed_files`. -/
def pfNames (s : DBState) : List String :=
  s.processed_files.map (fun p => p.filename)

/-- The `processed_files.filename` uniqueness (`filename TEXT NOT NULL UNIQUE`). -/
def filenameUnique (s : DBState) : Prop := (pfNames s).Nodup

instance (s : DBState) : Decidable (filenameUnique s) := by
  unfold filenameUnique; infer_instance

/-- The names stored in `categories`. -/
def catNames (s : DBState) : List String :=
  s.categories.map (fun c => c.name)

/-- The `categories.name` uniqueness (`name TEXT NOT NULL UNIQUE`). -/
def categoryNameUnique (s : DBState) : Prop := (catNames s).Nodup

instance (s : DBState) : Decidable (categoryNameUnique s) := by
  unfold categoryNameUnique; infer_instance

end VoiceDiary

namespace VoiceDiary

/-! ## C1: initialization failure behaviour -/

/-- C1 counterexample: the claim says a failing pool or schema makes
`initialize_db` raise; in the code both failures are caught and the call
returns normally with `False`. -/
theorem initialize_db_c1_counterexample :
    initialize_db false true = PyResult.returned false
    ∧ initialize_db false true ≠ PyResult.raised
    ∧ initialize_db true false = PyResult.returned false
    ∧ initialize_db true false ≠ PyResult.raised := by decide

/-- C1 (amended): `initialize_db` never raises — it returns `True` when
both the pool and the schema are established and `False` otherwise, the
caller (`setup_database.main`) aborting on a `False` return. -/
theorem initialize_db_c1_amended (pool_ok ddl_ok : Bool) :
    initialize_db pool_ok ddl_ok = PyResult.returned (pool_ok && ddl_ok) := by
  cases pool_ok <;> cases ddl_ok <;> rfl

/-! ## C5: read-path error behaviour -/

/-- C5 counterexample: on a storage error `get_transcription` returns
`None`, which is not the empty sequence the claim promises for every
read operation. -/
theorem get_transcription_c5_counterexample :
    get_transcription DBState.empty true 1 = PyVal.pynone
    ∧ get_transcription DBState.empty true 1 ≠ PyVal.pylist [] := by decide

/-- C5 (amended): every read path catches a storage error instead of
propagating it; the list-returning reads return the empty list, while
`get_transcription` returns `None`. -/
theorem db_reads_c5_amended (s : DBState) (tid limit sd ed : Nat) :
    get_transcription s true tid = PyVal.pynone
    ∧ get_latest_transcriptions s true limit = PyVal.pylist []
    ∧ get_transcriptions_by_date_range s true sd ed = PyVal.pylist [] := by
  refine ⟨?_, ?_, ?_⟩ <;> simp [get_transcription, get_latest_transcriptions,
    get_transcriptions_by_date_range]

/-! ## C6: configured date range -/

/-- C6 counterexample: for the configured range `[20240101, 20240103]`,
`get_date_range` itself returns the end datetime at midnight
(2024-01-03T00:00:00), not at 23:59:59 as the claim states. -/
theorem get_date_range_c6_counterexample :
    get_date_range [20240101, 20240103] ⟨2025, 6, 15, 12, 0, 0⟩
      = (⟨2024, 1, 1, 0, 0, 0⟩, ⟨2024, 1, 3, 0, 0, 0⟩)
    ∧ (get_date_range [20240101, 20240103] ⟨2025, 6, 15, 12, 0, 0⟩).2
        ≠ ⟨2024, 1, 3, 23, 59, 59⟩ := by decide

/-- C6 (amended): `get_date_range` returns both bounds at midnight of
their days, and the subsequent adjustment in `summarize_day` widens the
pair to 2024-01-01T00:00:00 .. 2024-01-03T23:59:59, covering the full
days inclusively. -/
theorem get_date_range_c6_amended (today : PyDatetime) :
    get_date_range [20240101, 20240103] today
      = (⟨2024, 1, 1, 0, 0, 0⟩, ⟨2024, 1, 3, 0, 0, 0⟩)
    ∧ adjust_full_days (get_date_range [20240101, 20240103] today)
      = (⟨2024, 1, 1, 0, 0, 0⟩, ⟨2024, 1, 3, 23, 59, 59⟩) := by
  have h1 : date_from_int 20240101 = some ⟨2024, 1, 1, 0, 0, 0⟩ := by decide
  have h3 : date_from_int 20240103 = some ⟨2024, 1, 3, 0, 0, 0⟩ := by decide
  constructor
  · simp [get_date_range, h1, h3]
  · simp [get_date_range, h1, h3, adjust_full_days]

/-! ## C7: chronological ordering key of the transcriber -/

/-- C7: the ordering key is the timestamp parsed from the filename
whenever the filename contains the 8-digit/underscore/6-digit pattern
and the matched digits parse as a valid date-time — in which case the
filesystem creation time is ignored; when the pattern is absent or the
matched digits do not parse, the key is the creation time. -/
theorem get_timestamp_from_filename_c7 (filename : String) (m : List Char)
    (dt ctime ctime' : PyDatetime) :
    (searchTs filename.toList = some m → parseTs m = some dt →
       get_timestamp_from_filename filename ctime = dt
       ∧ get_timestamp_from_filename filename ctime
           = get_timestamp_from_filename filename ctime')
    ∧ (searchTs filename.toList = some m → parseTs m = none →
       get_timestamp_from_filename filename ctime = ctime)
    ∧ (searchTs filename.toList = none →
       get_timestamp_from_filename filename ctime = ctime) := by
  refine ⟨fun h1 h2 => ?_, fun h1 h2 => ?_, fun h1 => ?_⟩
  · simp only [String.toList] at h1
    simp [get_timestamp_from_filename, String.toList, h1, h2]
  · simp only [String.toList] at h1
    simp [get_timestamp_from_filename, String.toList, h1, h2]
  · simp only [String.toList] at h1
    simp [get_timestamp_from_filename, String.toList, h1]

/-- C7 witness: a filename with a parsable embedded timestamp is keyed by
it for any creation time; a filename without the pattern, and one whose
matched digits name month 13, are keyed by the creation time. -/
theorem get_timestamp_from_filename_c7_witness :
    get_timestamp_from_filename "voice_20240102_080910.mp3"
        ⟨2030, 5, 5, 5, 5, 5⟩ = ⟨2024, 1, 2, 8, 9, 10⟩
    ∧ get_timestamp_from_filename "memo.mp3" ⟨2030, 5, 5, 5, 5, 5⟩
        = ⟨2030, 5, 5, 5, 5, 5⟩
    ∧ get_timestamp_from_filename "voice_20241302_080910.mp3"
        ⟨2030, 5, 5, 5, 5, 5⟩ = ⟨2030, 5, 5, 5, 5, 5⟩ := by
  refine ⟨?_, ?_, ?_⟩
  · exact ((get_timestamp_from_filename_c7 "voice_20240102_080910.mp3"
      ("20240102_080910".toList) ⟨2024, 1, 2, 8, 9, 10⟩
      ⟨2030, 5, 5, 5, 5, 5⟩ ⟨2030, 5, 5, 5, 5, 5⟩).1 (by decide) (by decide)).1
  · exact (get_timestamp_from_filename_c7 "memo.mp3" []
      ⟨2024, 1, 2, 8, 9, 10⟩ ⟨2030, 5, 5, 5, 5, 5⟩
      ⟨2030, 5, 5, 5, 5, 5⟩).2.2 (by decide)
  · exact (get_timestamp_from_filename_c7 "voice_20241302_080910.mp3"
      ("20241302_080910".toList) ⟨2024, 1, 2, 8, 9, 10⟩
      ⟨2030, 5, 5, 5, 5, 5⟩ ⟨2030, 5, 5, 5, 5, 5⟩).2.1 (by decide) (by decide)

/-! ## C8: active-prompt selection -/

/-- C8: with several active entries `get_active_prompt` returns the
first-encountered active one and warns; with exactly one it returns it
without warning; with none it returns the collection's first entry and
warns. -/
theorem get_active_prompt_c8 (prompts : List (String × PromptData)) :
    ((activeEntries prompts).length ≥ 2 →
       (get_active_prompt prompts).1 = (activeEntries prompts).head?
       ∧ (get_active_prompt prompts).2 = true)
    ∧ ((activeEntries prompts).length = 1 →
       (get_active_prompt prompts).1 = (activeEntries prompts).head?
       ∧ (get_active_prompt prompts).2 = false)
    ∧ (activeEntries prompts = [] → prompts ≠ [] →
       (get_active_prompt prompts).1
         = prompts.head?.map (fun p => (p.1, p.2.template.getD ""))
       ∧ (get_active_prompt prompts).2 = true) := by
  refine ⟨fun h => ?_, fun h => ?_, fun h hp => ?_⟩
  · match hap : activeEntries prompts with
    | [] => rw [hap] at h; simp at h
    | [p] => rw [hap] at h; simp at h
    | p :: q :: rest => simp [get_active_prompt, hap]
  · match hap : activeEntries prompts with
    | [] => rw [hap] at h; simp at h
    | [p] => simp [get_active_prompt, hap]
    | p :: q :: rest => rw [hap] at h; simp at h
  · match hpr : prompts with
    | [] => exact absurd rfl hp
    | (n, d) :: rest => simp [get_active_prompt, h]

/-- C8 witness: two active entries give the first with a warning; one
active entry is returned without a warning; no active entry gives the
first entry with a warning. -/
theorem get_active_prompt_c8_witness :
    (get_active_prompt [("a", ⟨some true, some "ta"⟩),
        ("b", ⟨some true, some "tb"⟩)]).1 = some ("a", "ta")
    ∧ (get_active_prompt [("a", ⟨some true, some "ta"⟩),
        ("b", ⟨some true, some "tb"⟩)]).2 = true
    ∧ (get_active_prompt [("a", ⟨some false, some "ta"⟩),
        ("b", ⟨some true, some "tb"⟩)]).1 = some ("b", "tb")
    ∧ (get_active_prompt [("a", ⟨some false, some "ta"⟩),
        ("b", ⟨some true, some "tb"⟩)]).2 = false
    ∧ (get_active_prompt [("a", ⟨none, some "ta"⟩)]).1 = some ("a", "ta")
    ∧ (get_active_prompt [("a", ⟨none, some "ta"⟩)]).2 = true := by
  have h2 := (get_active_prompt_c8 [("a", ⟨some true, some "ta"⟩),
    ("b", ⟨some true, some "tb"⟩)]).1 (by decide)
  have h1 := (get_active_prompt_c8 [("a", ⟨some false, some "ta"⟩),
    ("b", ⟨some true, some "tb"⟩)]).2.1 (by decide)
  have h0 := (get_active_prompt_c8 [("a", ⟨none, some "ta"⟩)]).2.2
    (by decide) (by decide)
  refine ⟨h2.1.trans (by decide), h2.2, h1.1.trans (by decide), h1.2,
    h0.1.trans (by decide), h0.2⟩

/-! ## Helper lemmas for the database layer -/

theorem upsertCategory_next_transcription_id (s : DBState) (name : String) :
    (upsertCategory s name).2.next_transcription_id
      = s.next_transcription_id := by
  unfold upsertCategory
  cases s.categories.find? (fun c => c.name == name) <;> simp

theorem upsertCategory_transcriptions (s : DBState) (name : String) :
    (upsertCategory s name).2.transcriptions = s.transcriptions := by
  unfold upsertCategory
  cases s.categories.find? (fun c => c.name == name) <;> simp

theorem upsertCategory_processed_files (s : DBState) (name : String) :
    (upsertCategory s name).2.processed_files = s.processed_files := by
  unfold upsertCategory
  cases s.categories.find? (fun c => c.name == name) <;> simp

theorem upsertProcessedFile_transcriptions (s : DBState)
    (fn fp st : String) (tid : Nat) :
    (upsertProcessedFile s fn fp st tid).transcriptions
      = s.transcriptions := by
  unfold upsertProcessedFile
  split <;> simp

theorem upsertProcessedFile_categories (s : DBState)
    (fn fp st : String) (tid : Nat) :
    (upsertProcessedFile s fn fp st tid).categories = s.categories := by
  unfold upsertProcessedFile
  split <;> simp

theorem save_transcription_body_fst (s : DBState) (now : Nat)
    (a : SaveArgs) :
    (save_transcription_body s now a).1 = s.next_transcription_id := by
  unfold save_transcription_body
  by_cases hc : strTruthy a.category = true <;>
    simp [hc, upsertCategory_next_transcription_id]

theorem save_transcription_cases (s : DBState) (now : Nat) (a : SaveArgs)
    (f : FailSpec) :
    save_transcription s now a f = (none, s)
    ∨ save_transcription s now a f
        = (some (save_transcription_body s now a).1,
           (save_transcription_body s now a).2) := by
  unfold save_transcription
  split
  · exact Or.inl rfl
  split
  · exact Or.inl rfl
  split
  · exact Or.inl rfl
  split
  · exact Or.inl rfl
  split
  · exact Or.inl rfl
  exact Or.inr rfl

theorem save_transcription_none_eq (s : DBState) (now : Nat)
    (a : SaveArgs) :
    save_transcription s now a FailSpec.none
      = (some (save_transcription_body s now a).1,
         (save_transcription_body s now a).2) := by
  simp [save_transcription, FailSpec.none]

theorem save_transcription_body_mem (s : DBState) (now : Nat)
    (a : SaveArgs) :
    ∃ t ∈ (save_transcription_body s now a).2.transcriptions,
      t.id = s.next_transcription_id ∧ t.content = a.content := by
  unfold save_transcription_body
  by_cases hc : strTruthy a.category = true <;>
    by_cases hf : (strTruthy a.filename && strTruthy a.audio_path) = true <;>
      · simp [hc, hf, upsertProcessedFile_transcriptions,
          upsertCategory_next_transcription_id, upsertCategory_transcriptions]
        exact ⟨_, Or.inr rfl, rfl, rfl⟩

/-! ## C2: save_transcription error contract -/

/-- C2: `save_transcription` never raises: it either fails — returning
the sentinel `None` with the database state exactly as before the call
(transaction rolled back) — or succeeds, returning the id of the newly
inserted transcription row, which is present in the committed state. -/
theorem save_transcription_c2 (s : DBState) (now : Nat) (a : SaveArgs)
    (f : FailSpec) :
    save_transcription s now a f = (none, s)
    ∨ (save_transcription s now a f
         = (some s.next_transcription_id, (save_transcription_body s now a).2)
       ∧ ∃ t ∈ (save_transcription s now a f).2.transcriptions,
           t.id = s.next_transcription_id ∧ t.content = a.content) := by
  rcases save_transcription_cases s now a f with h | h
  · exact Or.inl h
  · right
    constructor
    · rw [h, save_transcription_body_fst]
    · rw [h]
      exact save_transcription_body_mem s now a

/-! ## Helper lemmas for the processed_files upsert -/

theorem upd_filename (q : ProcessedFile) (st : String) (tid : Nat) :
    ({ q with status := st, transcription_id := some tid }
      : ProcessedFile).filename = q.filename := rfl

theorem map_filename_map_upd (l : List ProcessedFile) (fn st : String)
    (tid : Nat) :
    (l.map (fun p => if p.filename == fn then
        { p with status := st, transcription_id := some tid } else p)).map
      (fun p => p.filename) = l.map (fun p => p.filename) := by
  induction l with
  | nil => rfl
  | cons x t ih =>
      simp only [List.map_cons, ih]
      by_cases hx : (x.filename == fn) = true
      · rw [if_pos hx]
      · rw [if_neg hx]

theorem filter_map_upd (l : List ProcessedFile) (fn st : String)
    (tid : Nat) :
    (l.map (fun p => if p.filename == fn then
        { p with status := st, transcription_id := some tid } else p)).filter
      (fun p => p.filename == fn)
    = (l.filter (fun p => p.filename == fn)).map
        (fun p => { p with status := st, transcription_id := some tid }) := by
  induction l with
  | nil => rfl
  | cons x t ih =>
      by_cases hx : (x.filename == fn) = true
      · simp only [List.map_cons, if_pos hx, List.filter_cons,
          upd_filename, hx, if_true]
        rw [ih]
      · simp only [List.map_cons, if_neg hx, List.filter_cons]
        exact ih

theorem filter_length_of_nodup (l : List ProcessedFile) (fn : String)
    (h : (l.map (fun p => p.filename)).Nodup) :
    (l.filter (fun p => p.filename == fn)).length
      = if fn ∈ l.map (fun p => p.filename) then 1 else 0 := by
  induction l with
  | nil => simp
  | cons x t ih =>
      simp only [List.map_cons, List.nodup_cons] at h
      by_cases hx : x.filename = fn
      · have hnt : fn ∉ t.map (fun p => p.filename) := by
          rw [← hx]; exact h.1
        simp [List.filter_cons, hx, ih h.2, hnt]
      · have hb : (x.filename == fn) = false := by
          simpa using hx
        have hx' : ¬ fn = x.filename := fun hh => hx hh.symm
        simp [List.filter_cons, hb, ih h.2, hx, hx']

theorem mem_upd_eq (l : List ProcessedFile) (fn st : String) (tid : Nat)
    (p : ProcessedFile)
    (hp : p ∈ l.map (fun q => if q.filename == fn then
        { q with status := st, transcription_id := some tid } else q))
    (hf : p.filename = fn) :
    p.status = st ∧ p.transcription_id = some tid := by
  induction l with
  | nil => simp at hp
  | cons x t ih =>
      simp only [List.map_cons, List.mem_cons] at hp
      rcases hp with hp | hp
      · by_cases hx : x.filename == fn
        · rw [if_pos hx] at hp; subst hp; exact ⟨rfl, rfl⟩
        · rw [if_neg hx] at hp; subst hp
          exact absurd hf (by simpa using hx)
      · exact ih hp

theorem upsertProcessedFile_key (s : DBState) (fn fp st : String)
    (tid : Nat) (h : filenameUnique s) :
    filenameUnique (upsertProcessedFile s fn fp st tid)
    ∧ ((upsertProcessedFile s fn fp st tid).processed_files.filter
        (fun p => p.filename == fn)).length = 1
    ∧ ∀ p ∈ (upsertProcessedFile s fn fp st tid).processed_files,
        p.filename = fn → p.status = st ∧ p.transcription_id = some tid := by
  unfold filenameUnique pfNames at h ⊢
  unfold upsertProcessedFile
  by_cases hany : s.processed_files.any (fun p => p.filename == fn) = true
  · rw [if_pos hany]
    have hmem : fn ∈ s.processed_files.map (fun p => p.filename) := by
      rcases List.any_eq_true.mp hany with ⟨p, hp, he⟩
      exact List.mem_map.mpr ⟨p, hp, by simpa using he⟩
    refine ⟨?_, ?_, ?_⟩
    · dsimp only
      rw [map_filename_map_upd]
      exact h
    · dsimp only
      rw [filter_map_upd, List.length_map,
        filter_length_of_nodup _ _ h, if_pos hmem]
    · intro p hp hf
      exact mem_upd_eq _ _ _ _ _ hp hf
  · rw [if_neg hany]
    have hnin : fn ∉ s.processed_files.map (fun p => p.filename) := by
      intro hm
      rcases List.mem_map.mp hm with ⟨p, hp, he⟩
      exact hany (List.any_eq_true.mpr ⟨p, hp, by simp [he]⟩)
    have hfilnil : s.processed_files.filter (fun p => p.filename == fn)
        = [] := by
      apply List.filter_eq_nil_iff.mpr
      intro p hp he
      exact hnin (List.mem_map.mpr ⟨p, hp, by simpa using he⟩)
    refine ⟨?_, ?_, ?_⟩
    · simp only [List.map_append, List.nodup_append]
      refine ⟨h, by simp, ?_⟩
      intro x hx hxm
      simp only [List.map_cons, List.map_nil, List.mem_singleton] at hxm
      subst hxm
      exact hnin hx
    · simp [List.filter_append, hfilnil, List.filter_cons]
    · intro p hp hf
      simp only [List.mem_append, List.mem_singleton] at hp
      rcases hp with hp | hp
      · exact absurd (List.mem_map.mpr ⟨p, hp, hf⟩) hnin
      · subst hp; exact ⟨rfl, rfl⟩

theorem save_transcription_body_key (s : DBState) (now : Nat)
    (a : SaveArgs) (fn : String)
    (hf : a.filename = some fn) (hfn : fn ≠ "")
    (hap : strTruthy a.audio_path = true) (h : filenameUnique s) :
    filenameUnique (save_transcription_body s now a).2
    ∧ ((save_transcription_body s now a).2.processed_files.filter
        (fun p => p.filename == fn)).length = 1
    ∧ ∀ p ∈ (save_transcription_body s now a).2.processed_files,
        p.filename = fn → p.status = "completed"
          ∧ p.transcription_id = some (save_transcription_body s now a).1 := by
  have hft : strTruthy a.filename = true := by
    rw [hf]; simp [strTruthy]; exact hfn
  have hgetd : a.filename.getD "" = fn := by rw [hf]; rfl
  unfold save_transcription_body
  by_cases hc : strTruthy a.category = true
  · simp only [hc, hft, hap, if_true, Bool.and_self, Bool.true_and,
      if_pos, hgetd]
    have h2 : filenameUnique
        { (upsertCategory s (a.category.getD "")).2 with
           transcriptions := (upsertCategory s (a.category.getD "")).2.transcriptions ++
             [⟨(upsertCategory s (a.category.getD "")).2.next_transcription_id,
               a.content, a.filename, a.audio_path, a.model_type, now,
               a.duration_seconds, some (upsertCategory s (a.category.getD "")).1,
               a.metadata⟩]
           next_transcription_id :=
             (upsertCategory s (a.category.getD "")).2.next_transcription_id + 1 } := by
      unfold filenameUnique pfNames at h ⊢
      simpa [upsertCategory_processed_files] using h
    exact upsertProcessedFile_key _ fn _ "completed" _ h2
  · simp only [hc, hft, hap, if_true, Bool.and_self, Bool.true_and,
      if_neg, if_false, Bool.false_eq_true, hgetd]
    have h2 : filenameUnique
        { s with
           transcriptions := s.transcriptions ++
             [⟨s.next_transcription_id, a.content, a.filename, a.audio_path,
               a.model_type, now, a.duration_seconds, none, a.metadata⟩]
           next_transcription_id := s.next_transcription_id + 1 } := by
      unfold filenameUnique pfNames at h ⊢
      simpa using h
    exact upsertProcessedFile_key _ fn _ "completed" _ h2

theorem save_transcription_body_preserves_fu (s : DBState) (now : Nat)
    (a : SaveArgs) (h : filenameUnique s) :
    filenameUnique (save_transcription_body s now a).2 := by
  unfold save_transcription_body
  by_cases hc : strTruthy a.category = true <;>
    by_cases hg : (strTruthy a.filename && strTruthy a.audio_path) = true
  all_goals simp only [hc, hg, if_true, if_false, Bool.false_eq_true]
  all_goals first
    | (apply (upsertProcessedFile_key _ _ _ _ _ ?_).1
       unfold filenameUnique pfNames at h ⊢
       simpa [upsertCategory_processed_files] using h)
    | (unfold filenameUnique pfNames at h ⊢
       simpa [upsertCategory_processed_files] using h)

theorem save_transcription_preserves_filenameUnique (s : DBState)
    (now : Nat) (a : SaveArgs) (f : FailSpec) (h : filenameUnique s) :
    filenameUnique (save_transcription s now a f).2 := by
  rcases save_transcription_cases s now a f with hh | hh <;> rw [hh]
  · exact h
  · exact save_transcription_body_preserves_fu s now a h

theorem save_transcription_none_snd (s : DBState) (now : Nat)
    (a : SaveArgs) :
    (save_transcription s now a FailSpec.none).2
      = (save_transcription_body s now a).2 := by
  rw [save_transcription_none_eq]

theorem save_transcription_none_fst (s : DBState) (now : Nat)
    (a : SaveArgs) :
    (save_transcription s now a FailSpec.none).1
      = some (save_transcription_body s now a).1 := by
  rw [save_transcription_none_eq]

/-! ## C3: processed_files upsert keyed on filename -/

/-- C3: starting from a state with unique processed filenames, two
successful `save_transcription` calls that supply the same (truthy)
filename and truthy audio paths leave exactly one `processed_files` row
for that filename, whose status is `completed` and whose
`transcription_id` references the transcription returned by the latest
call; moreover every `save_transcription` call (any failure outcome, any
arguments) preserves filename uniqueness. -/
theorem save_transcription_c3 (s t : DBState) (now1 now2 now3 : Nat)
    (a1 a2 b : SaveArgs) (fn : String) (g : FailSpec)
    (hu : filenameUnique s)
    (h1 : a1.filename = some fn) (h2 : a2.filename = some fn)
    (hfn : fn ≠ "")
    (hp1 : strTruthy a1.audio_path = true)
    (hp2 : strTruthy a2.audio_path = true)
    (ht : filenameUnique t) :
    ((save_transcription (save_transcription s now1 a1 FailSpec.none).2
        now2 a2 FailSpec.none).2.processed_files.filter
          (fun p => p.filename == fn)).length = 1
    ∧ (∀ p ∈ (save_transcription (save_transcription s now1 a1
          FailSpec.none).2 now2 a2 FailSpec.none).2.processed_files,
        p.filename = fn →
          p.status = "completed"
          ∧ p.transcription_id
              = (save_transcription (save_transcription s now1 a1
                  FailSpec.none).2 now2 a2 FailSpec.none).1)
    ∧ filenameUnique (save_transcription t now3 b g).2 := by
  have hs1 : filenameUnique (save_transcription s now1 a1 FailSpec.none).2 := by
    rw [save_transcription_none_snd]
    exact save_transcription_body_preserves_fu s now1 a1 hu
  have hkey := save_transcription_body_key
    (save_transcription s now1 a1 FailSpec.none).2 now2 a2 fn h2 hfn hp2 hs1
  refine ⟨?_, ?_, save_transcription_preserves_filenameUnique t now3 b g ht⟩
  · rw [save_transcription_none_snd]
    exact hkey.2.1
  · rw [save_transcription_none_snd, save_transcription_none_fst]
    exact hkey.2.2

/-- C3 witness: two saves of `a.wav` into the empty database leave one
`processed_files` row for `a.wav`. -/
theorem save_transcription_c3_witness :
    ((save_transcription (save_transcription DBState.empty 1
        ⟨"hello", some "a.wav", some "/x/a.wav", none, none, none, none⟩
        FailSpec.none).2 2
        ⟨"again", some "a.wav", some "/y/a.wav", none, none, none, none⟩
        FailSpec.none).2.processed_files.filter
          (fun p => p.filename == "a.wav")).length = 1 := by
  exact (save_transcription_c3 DBState.empty DBState.empty 1 2 3
    ⟨"hello", some "a.wav", some "/x/a.wav", none, none, none, none⟩
    ⟨"again", some "a.wav", some "/y/a.wav", none, none, none, none⟩
    ⟨"b", none, none, none, none, none, none⟩ "a.wav" FailSpec.none
    (by decide) rfl rfl (by decide) (by decide) (by decide) (by decide)).1

/-! ## Helper lemmas for the categories upsert -/

theorem find?_of_filter_singleton (p : Category → Bool)
    (l : List Category) (x : Category) (h : l.filter p = [x]) :
    l.find? p = some x := by
  induction l with
  | nil => simp at h
  | cons y t ih =>
      by_cases hy : p y = true
      · rw [List.filter_cons_of_pos hy] at h
        simp only [List.cons.injEq] at h
        rw [List.find?_cons_of_pos _ hy, h.1]
      · rw [List.filter_cons_of_neg hy] at h
        rw [List.find?_cons_of_neg _ hy]
        exact ih h

theorem filter_singleton_of_mem_nodup (l : List Category) (c : String)
    (h : (l.map (fun k => k.name)).Nodup) (x : Category)
    (hx : x ∈ l) (hc : x.name = c) :
    l.filter (fun k => k.name == c) = [x] := by
  induction l with
  | nil => simp at hx
  | cons y t ih =>
      simp only [List.map_cons, List.nodup_cons] at h
      rcases List.mem_cons.mp hx with rfl | hxt
      · rw [List.filter_cons_of_pos (by simpa using hc)]
        have hnil : t.filter (fun k => k.name == c) = [] := by
          apply List.filter_eq_nil_iff.mpr
          intro z hz hzc
          apply h.1
          rw [hc, ← (show z.name = c from by simpa using hzc)]
          exact List.mem_map.mpr ⟨z, hz, rfl⟩
        rw [hnil]
      · have hyn : ¬ (y.name == c) = true := by
          intro hyc
          apply h.1
          rw [show y.name = c from by simpa using hyc, ← hc]
          exact List.mem_map.mpr ⟨x, hxt, rfl⟩
        rw [List.filter_cons, if_neg hyn]
        exact ih h.2 hxt

theorem upsertCategory_of_find? (s : DBState) (c : String) (k : Category)
    (hf : s.categories.find? (fun x => x.name == c) = some k) :
    upsertCategory s c = (k.id, s) := by
  unfold upsertCategory
  rw [hf]

theorem upsertCategory_key (s : DBState) (c : String)
    (h : categoryNameUnique s) :
    categoryNameUnique (upsertCategory s c).2
    ∧ (upsertCategory s c).2.categories.filter (fun k => k.name == c)
        = [⟨(upsertCategory s c).1, c⟩] := by
  unfold categoryNameUnique catNames at h ⊢
  unfold upsertCategory
  cases hf : s.categories.find? (fun k => k.name == c) with
  | some k =>
      have hk : k.name = c := by simpa using List.find?_some hf
      have hmem := List.mem_of_find?_eq_some hf
      constructor
      · simpa using h
      · dsimp only
        rw [filter_singleton_of_mem_nodup s.categories c h k hmem hk]
        cases k with
        | mk kid kname => cases hk; rfl
  | none =>
      have hnone : ∀ x ∈ s.categories, ¬ (x.name == c) = true :=
        List.find?_eq_none.mp hf
      have hnin : c ∉ s.categories.map (fun k => k.name) := by
        intro hm
        rcases List.mem_map.mp hm with ⟨x, hx, hxc⟩
        exact hnone x hx (by simp [hxc])
      constructor
      · dsimp only
        rw [List.map_append, List.nodup_append]
        refine ⟨h, by simp, ?_⟩
        intro x hx hxm
        simp only [List.map_cons, List.map_nil, List.mem_singleton] at hxm
        subst hxm
        exact hnin hx
      · dsimp only
        rw [List.filter_append, List.filter_eq_nil_iff.mpr hnone]
        simp [List.filter_cons]

theorem save_transcription_body_cat (s : DBState) (now : Nat)
    (a : SaveArgs) (c : String)
    (hc1 : a.category = some c) (hc : c ≠ "") :
    (save_transcription_body s now a).2.categories
      = (upsertCategory s c).2.categories
    ∧ (save_transcription_body s now a).2.transcriptions
      = s.transcriptions ++
        [⟨s.next_transcription_id, a.content, a.filename, a.audio_path,
          a.model_type, now, a.duration_seconds,
          some (upsertCategory s c).1, a.metadata⟩]
    ∧ (save_transcription_body s now a).1 = s.next_transcription_id := by
  have hct : strTruthy a.category = true := by
    rw [hc1]; simp [strTruthy]; exact hc
  have hgetd : a.category.getD "" = c := by rw [hc1]; rfl
  unfold save_transcription_body
  by_cases hg : (strTruthy a.filename && strTruthy a.audio_path) = true <;>
    simp [hct, hgetd, hg, upsertProcessedFile_categories,
      upsertProcessedFile_transcriptions, upsertCategory_transcriptions,
      upsertCategory_next_transcription_id]

/-! ## C4: category upsert keyed on name -/

/-- C4: starting from a state with unique category names, two successful
`save_transcription` calls that supply the same (truthy) category name
leave exactly one `categories` row for that name; the second call's
upsert returns the existing row's id with the state unchanged (instead of
erroring), and both inserted transcriptions reference that same id. -/
theorem save_transcription_c4 (s : DBState) (now1 now2 : Nat)
    (a1 a2 : SaveArgs) (c : String)
    (hu : categoryNameUnique s)
    (h1 : a1.category = some c) (h2 : a2.category = some c)
    (hc : c ≠ "") :
    ∃ cid : Nat,
      upsertCategory (save_transcription s now1 a1 FailSpec.none).2 c
        = (cid, (save_transcription s now1 a1 FailSpec.none).2)
      ∧ (save_transcription (save_transcription s now1 a1 FailSpec.none).2
          now2 a2 FailSpec.none).2.categories.filter
            (fun k => k.name == c) = [⟨cid, c⟩]
      ∧ (∃ t1 ∈ (save_transcription (save_transcription s now1 a1
            FailSpec.none).2 now2 a2 FailSpec.none).2.transcriptions,
          some t1.id = (save_transcription s now1 a1 FailSpec.none).1
          ∧ t1.category_id = some cid)
      ∧ (∃ t2 ∈ (save_transcription (save_transcription s now1 a1
            FailSpec.none).2 now2 a2 FailSpec.none).2.transcriptions,
          some t2.id = (save_transcription (save_transcription s now1 a1
            FailSpec.none).2 now2 a2 FailSpec.none).1
          ∧ t2.category_id = some cid) := by
  refine ⟨(upsertCategory s c).1, ?_⟩
  have hkey := upsertCategory_key s c hu
  have hbc1 := save_transcription_body_cat s now1 a1 c h1 hc
  have hS1cats : (save_transcription s now1 a1 FailSpec.none).2.categories
      = (upsertCategory s c).2.categories := by
    rw [save_transcription_none_snd]; exact hbc1.1
  have hS1nodup : categoryNameUnique
      (save_transcription s now1 a1 FailSpec.none).2 := by
    unfold categoryNameUnique catNames
    rw [hS1cats]
    exact hkey.1
  have hfilt1 : (save_transcription s now1 a1
      FailSpec.none).2.categories.filter (fun k => k.name == c)
        = [⟨(upsertCategory s c).1, c⟩] := by
    rw [hS1cats]; exact hkey.2
  have hfind := find?_of_filter_singleton _ _ _ hfilt1
  have hups : upsertCategory (save_transcription s now1 a1
      FailSpec.none).2 c
        = ((upsertCategory s c).1, (save_transcription s now1 a1
            FailSpec.none).2) :=
    upsertCategory_of_find? _ _ _ hfind
  have hbc2 := save_transcription_body_cat
    (save_transcription s now1 a1 FailSpec.none).2 now2 a2 c h2 hc
  refine ⟨hups, ?_, ?_, ?_⟩
  · rw [save_transcription_none_snd, hbc2.1, hups]
    exact hfilt1
  · rw [save_transcription_none_snd, hbc2.2.1, save_transcription_none_fst,
      hbc1.2.2]
    refine ⟨⟨s.next_transcription_id, a1.content, a1.filename,
      a1.audio_path, a1.model_type, now1, a1.duration_seconds,
      some (upsertCategory s c).1, a1.metadata⟩, ?_, rfl, rfl⟩
    apply List.mem_append_left
    rw [save_transcription_none_snd, hbc1.2.1]
    exact List.mem_append_right _ (List.mem_singleton.mpr rfl)
  · rw [save_transcription_none_snd, hbc2.2.1, save_transcription_none_fst,
      hbc2.2.2, hups]
    refine ⟨⟨(save_transcription s now1 a1 FailSpec.none).2.next_transcription_id,
      a2.content, a2.filename, a2.audio_path, a2.model_type, now2,
      a2.duration_seconds, some (upsertCategory s c).1, a2.metadata⟩,
      ?_, rfl, rfl⟩
    exact List.mem_append_right _ (List.mem_singleton.mpr rfl)

/-- C4 witness: two saves with category `diary` into the empty database
leave one `categories` row named `diary`, reused by the second call. -/
theorem save_transcription_c4_witness :
    ∃ cid : Nat,
      upsertCategory (save_transcription DBState.empty 1
        ⟨"hello", none, none, none, none, some "diary", none⟩
        FailSpec.none).2 "diary"
        = (cid, (save_transcription DBState.empty 1
            ⟨"hello", none, none, none, none, some "diary", none⟩
            FailSpec.none).2)
      ∧ (save_transcription (save_transcription DBState.empty 1
          ⟨"hello", none, none, none, none, some "diary", none⟩
          FailSpec.none).2 2
          ⟨"again", none, none, none, none, some "diary", none⟩
          FailSpec.none).2.categories.filter
            (fun k => k.name == "diary") = [⟨cid, "diary"⟩]
      ∧ (∃ t1 ∈ (save_transcription (save_transcription DBState.empty 1
            ⟨"hello", none, none, none, none, some "diary", none⟩
            FailSpec.none).2 2
            ⟨"again", none, none, none, none, some "diary", none⟩
            FailSpec.none).2.transcriptions,
          some t1.id = (save_transcription DBState.empty 1
            ⟨"hello", none, none, none, none, some "diary", none⟩
            FailSpec.none).1
          ∧ t1.category_id = some cid)
      ∧ (∃ t2 ∈ (save_transcription (save_transcription DBState.empty 1
            ⟨"hello", none, none, none, none, some "diary", none⟩
            FailSpec.none).2 2
            ⟨"again", none, none, none, none, some "diary", none⟩
            FailSpec.none).2.transcriptions,
          some t2.id = (save_transcription (save_transcription
            DBState.empty 1
            ⟨"hello", none, none, none, none, some "diary", none⟩
            FailSpec.none).2 2
            ⟨"again", none, none, none, none, some "diary", none⟩
            FailSpec.none).1
          ∧ t2.category_id = some cid) := by
  exact save_transcription_c4 DBState.empty 1 2
    ⟨"hello", none, none, none, none, some "diary", none⟩
    ⟨"again", none, none, none, none, some "diary", none⟩
    "diary" (by decide) rfl rfl (by decide)

/-! ## Helper lemmas for move_file -/

theorem findFreeName_not_mem (existing : List String) (stem ext : String) :
    ∀ (fuel counter : Nat) (r : String),
      findFreeName existing stem ext fuel counter = some r →
        r ∉ existing := by
  intro fuel
  induction fuel with
  | zero =>
      intro counter r h
      simp [findFreeName] at h
  | succ n ih =>
      intro counter r h
      unfold findFreeName at h
      by_cases hc :
          existing.contains (stem ++ "_" ++ Nat.repr counter ++ ext) = true
      · rw [if_pos hc] at h
        exact ih _ _ h
      · rw [if_neg hc] at h
        injection h with h'
        subst h'
        intro hmem
        exact hc (by simpa using hmem)

theorem findFreeName_step (existing : List String) (stem ext : String)
    (fuel counter : Nat)
    (h : ¬ existing.contains (stem ++ "_" ++ Nat.repr counter ++ ext)
        = true) :
    findFreeName existing stem ext (fuel + 1) counter
      = some (stem ++ "_" ++ Nat.repr counter ++ ext) := by
  unfold findFreeName
  rw [if_neg h]

theorem move_file_dest_free (existing : List String) (name : String)
    (fuel : Nat) (h : ¬ existing.contains name = true) :
    move_file_dest existing name fuel = some name := by
  unfold move_file_dest
  rw [if_neg h]

theorem move_file_dest_collide (existing : List String) (name : String)
    (fuel : Nat) (h : existing.contains name = true) :
    move_file_dest existing name fuel
      = findFreeName existing (splitName name).1 (splitName name).2
          fuel 1 := by
  unfold move_file_dest
  rw [if_pos h]

theorem move_file_dest_not_mem (existing : List String) (name : String)
    (fuel : Nat) (r : String)
    (h : move_file_dest existing name fuel = some r) :
    r ∉ existing := by
  unfold move_file_dest at h
  by_cases hc : existing.contains name = true
  · rw [if_pos hc] at h
    exact findFreeName_not_mem existing _ _ fuel 1 r h
  · rw [if_neg hc] at h
    injection h with h'
    subst h'
    intro hmem
    exact hc (by simpa using hmem)

theorem move_file_spec (ex : List String) (n : String) (f : Nat)
    (r : String) (rest : List String)
    (h : move_file ex n f = some (r, rest)) :
    r ∉ ex ∧ rest = ex ++ [r] := by
  unfold move_file at h
  cases hd : move_file_dest ex n f with
  | none => rw [hd] at h; simp at h
  | some d =>
      rw [hd] at h
      simp only [Option.map_some'] at h
      injection h with h'
      have h1 : d = r := congrArg Prod.fst h'
      have h2 : ex ++ [d] = rest := congrArg Prod.snd h'
      subst h1
      exact ⟨move_file_dest_not_mem ex n f d hd, h2.symm⟩

/-! ## C9: filename-collision handling of the router -/

/-- C9: `move_file` never overwrites — a resolved destination name is
never one already present — and moving two files named `a.txt` into the
same directory (which contains neither `a.txt` nor `a_1.txt` beforehand)
leaves both `a.txt` and `a_1.txt` present, the collision resolved by the
`_1` suffix, the lowest unused counter. -/
theorem move_file_c9 (existing ex rest : List String) (fuel f : Nat)
    (n r : String)
    (h1 : "a.txt" ∉ existing) (h2 : "a_1.txt" ∉ existing)
    (hm : move_file ex n f = some (r, rest)) :
    move_file existing "a.txt" (fuel + 1)
      = some ("a.txt", existing ++ ["a.txt"])
    ∧ move_file (existing ++ ["a.txt"]) "a.txt" (fuel + 1)
      = some ("a_1.txt", (existing ++ ["a.txt"]) ++ ["a_1.txt"])
    ∧ r ∉ ex ∧ rest = ex ++ [r] := by
  refine ⟨?_, ?_, move_file_spec ex n f r rest hm⟩
  · unfold move_file
    rw [move_file_dest_free existing "a.txt" (fuel + 1)
      (by simpa using h1)]
    rfl
  · unfold move_file
    rw [move_file_dest_collide (existing ++ ["a.txt"]) "a.txt" (fuel + 1)
      (by simp)]
    have hcand : (splitName "a.txt").1 ++ "_" ++ Nat.repr 1
        ++ (splitName "a.txt").2 = "a_1.txt" := by decide
    have hc2 : ¬ (existing ++ ["a.txt"]).contains
        ((splitName "a.txt").1 ++ "_" ++ Nat.repr 1
          ++ (splitName "a.txt").2) = true := by
      rw [hcand]
      intro hcon
      rcases (by simpa using hcon :
          "a_1.txt" ∈ existing ∨ ("a_1.txt" : String) = "a.txt") with hh | hh
      · exact h2 hh
      · exact absurd hh (by decide)
    rw [findFreeName_step _ _ _ fuel 1 hc2, hcand]
    rfl

/-- C9 witness: moving `a.txt` twice into an initially empty directory
produces `a.txt` and then `a_1.txt`, and the resolved name of the second
move is not among the names already present. -/
theorem move_file_c9_witness :
    move_file [] "a.txt" 1 = some ("a.txt", [] ++ ["a.txt"])
    ∧ move_file ([] ++ ["a.txt"]) "a.txt" 1
      = some ("a_1.txt", ([] ++ ["a.txt"]) ++ ["a_1.txt"])
    ∧ "a_1.txt" ∉ ["a.txt"] ∧ ["a.txt", "a_1.txt"] = ["a.txt"] ++ ["a_1.txt"] := by
  exact move_file_c9 [] ["a.txt"] ["a.txt", "a_1.txt"] 0 2 "a.txt" "a_1.txt"
    (by decide) (by decide) (by decide)

/-! ## C10: deleted-files counter in the drive downloader -/

/-- C10: with dry-run off and delete-after-download on, a successfully
downloaded file of an enabled type bumps `deleted_files` by one no matter
whether the remote deletion succeeds — the result of `delete_file` is
discarded, so a failed deletion still counts as deleted. -/
theorem process_item_c10 (cfg : DlConfig) (st : FolderStats)
    (it : DriveItem) (ft : FileType)
    (hdry : cfg.dry_run = false)
    (hdel : cfg.delete_after_download = true)
    (hft : it.ftype = some ft)
    (hen : typeEnabled cfg ft = true)
    (hdl : it.download_ok = true) :
    (process_item cfg st it).deleted_files = st.deleted_files + 1
    ∧ process_item cfg st it
        = process_item cfg st { it with delete_ok := !it.delete_ok } := by
  cases ft <;>
    simp [process_item, hft, hdry, hdel, hen, hdl, bumpType, delete_file]

/-- C10 witness: an enabled audio file whose download succeeds but whose
remote deletion fails is still counted in `deleted_files`. -/
theorem process_item_c10_witness :
    (process_item ⟨true, true, true, true, false⟩ ⟨0, 0, 0, 0, 0, 0, 0, 0⟩
        ⟨some FileType.audio, true, false⟩).deleted_files = 0 + 1 := by
  exact (process_item_c10 ⟨true, true, true, true, false⟩
    ⟨0, 0, 0, 0, 0, 0, 0, 0⟩ ⟨some FileType.audio, true, false⟩
    FileType.audio rfl rfl rfl rfl rfl).1

end VoiceDiary
